import Mathlib

/-!
Verification development for the Municipal Complaints Database CLI
(`menu_automate.py`): a SQLite-backed reporting tool over four tables
(residents, service_categories, complaints, status_logs).

Shallow embedding conventions:
* each table is a `List` of rows in store scan order (rowid order for these
  `INTEGER PRIMARY KEY` tables);
* `DATE` columns hold ISO-8601 text in the store, and ISO text compares
  lexicographically exactly as the underlying day ordering, so dates are
  embedded as `Nat` (e.g. `20240110` for `2024-01-10`);
* SQL floats (`ROUND(x, 2)` over `* 100.0 /`) are embedded as exact
  rationals with explicit half-up rounding to two decimals;
* the `ROW_NUMBER() OVER (PARTITION BY complaint_id ORDER BY status_date
  DESC)` / `rn = 1` subquery that every status-dependent report repeats is
  embedded once as `latestLog`: the maximum-date event, ties broken by the
  store's row ordering (earliest row wins);
* `ORDER BY` is embedded as a sort by the requested key.
-/

/-- A row of the `residents` table. -/
structure Resident where
  resident_id : Nat
  first_name : String
  last_name : String
  ward : Nat
  email : String
  phone : String
deriving DecidableEq

/-- A row of the `service_categories` table. -/
structure ServiceCategory where
  category_id : Nat
  category_name : String
deriving DecidableEq

/-- A row of the `complaints` table. -/
structure Complaint where
  complaint_id : Nat
  resident_id : Nat
  category_id : Nat
  title : String
  description : String
  submission_date : Nat
deriving DecidableEq

/-- A row of the `status_logs` table. -/
structure StatusLog where
  log_id : Nat
  complaint_id : Nat
  status : String
  status_date : Nat
deriving DecidableEq

/-- The four tables of the store, each in scan order. -/
structure DB where
  residents : List Resident
  service_categories : List ServiceCategory
  complaints : List Complaint
  status_logs : List StatusLog
deriving DecidableEq

/-- Of a list of status events (in store row order), the one ranked
`rn = 1` by `ROW_NUMBER() OVER (ORDER BY status_date DESC)`: the event
with the maximum `status_date`, the earlier row winning a tie. -/
def pickLatest : List StatusLog → Option StatusLog
  | [] => none
  | l :: ls =>
    match pickLatest ls with
    | none => some l
    | some b => if l.status_date < b.status_date then some b else some l

/-- The latest-status resolver: the repeated
`SELECT complaint_id, status, ROW_NUMBER() OVER (PARTITION BY complaint_id
ORDER BY status_date DESC) as rn FROM status_logs` subquery joined with
`rn = 1`, restricted to one complaint id. -/
def latestLog (logs : List StatusLog) (cid : Nat) : Option StatusLog :=
  pickLatest (logs.filter (fun l => l.complaint_id == cid))

/-- A complaint's current status as every report derives it. -/
def currentStatus (db : DB) (cid : Nat) : Option String :=
  (latestLog db.status_logs cid).map (fun l => l.status)

/-- `first_name || ' ' || last_name`. -/
def residentName (r : Resident) : String :=
  r.first_name ++ " " ++ r.last_name

/-- Result row of reports 1 (active complaints) and 3 (complaints by
ward): complaint_id, resident_name, category_name, title,
submission_date, status. -/
structure ReportRow where
  complaint_id : Nat
  resident_name : String
  category_name : String
  title : String
  submission_date : Nat
  status : String
deriving DecidableEq

/-- Descending comparison on submission dates, for `ORDER BY
c.submission_date DESC`. -/
def byDateDesc (a b : ReportRow) : Prop :=
  b.submission_date ≤ a.submission_date

instance : DecidableRel byDateDesc :=
  fun a b => inferInstanceAs (Decidable (b.submission_date ≤ a.submission_date))

/-- The join of `query_1_active_complaints` before its `ORDER BY`:
complaints ⋈ residents ⋈ service_categories ⋈ resolver, keeping rows
whose resolved status is not `'Resolved'`. -/
def query_1_join (db : DB) : List ReportRow :=
  db.complaints.flatMap (fun c =>
    (db.residents.filter (fun r => r.resident_id == c.resident_id)).flatMap (fun r =>
      (db.service_categories.filter (fun sc => sc.category_id == c.category_id)).flatMap (fun sc =>
        match latestLog db.status_logs c.complaint_id with
        | some sl =>
          if sl.status ≠ "Resolved" then
            [⟨c.complaint_id, residentName r, sc.category_name, c.title,
              c.submission_date, sl.status⟩]
          else []
        | none => [])))

/-- Report 1, `query_1_active_complaints`: the join above ordered by
submission date descending. -/
def query_1_active_complaints (db : DB) : List ReportRow :=
  (query_1_join db).insertionSort byDateDesc

/-- How a user-typed parameter bound against an `INTEGER`-affinity column
compares: SQLite converts the text to an integer when the conversion is
lossless (here: a nonempty all-digit string), and a non-numeric text is
never equal to an integer value. -/
def sqlIntParam (s : String) : Option Nat :=
  if s.data ≠ [] ∧ s.data.all (fun c => c.isDigit) then
    some (s.data.foldl (fun n c => n * 10 + (c.toNat - '0'.toNat)) 0)
  else none

/-- Whether an `INTEGER` column value equals a bound parameter. -/
def intParamMatches (p : Option Nat) (v : Nat) : Bool :=
  match p with
  | some n => n == v
  | none => false

/-- Result row of report 2 (complaints by category): no category_name
column. -/
structure Q2Row where
  complaint_id : Nat
  resident_name : String
  title : String
  submission_date : Nat
  status : String
deriving DecidableEq

/-- The join of `query_2_complaints_by_category` before its `ORDER BY`:
`WHERE c.category_id = ?`. -/
def query_2_join (p : Option Nat) (db : DB) : List Q2Row :=
  db.complaints.flatMap (fun c =>
    (db.residents.filter (fun r => r.resident_id == c.resident_id)).flatMap (fun r =>
      (db.service_categories.filter (fun sc => sc.category_id == c.category_id)).flatMap (fun _ =>
        match latestLog db.status_logs c.complaint_id with
        | some sl =>
          if intParamMatches p c.category_id then
            [⟨c.complaint_id, residentName r, c.title, c.submission_date, sl.status⟩]
          else []
        | none => [])))

/-- Descending submission-date comparison for `Q2Row`. -/
def q2ByDateDesc (a b : Q2Row) : Prop :=
  b.submission_date ≤ a.submission_date

instance : DecidableRel q2ByDateDesc :=
  fun a b => inferInstanceAs (Decidable (b.submission_date ≤ a.submission_date))

/-- Report 2, `query_2_complaints_by_category`. -/
def query_2_complaints_by_category (p : Option Nat) (db : DB) : List Q2Row :=
  (query_2_join p db).insertionSort q2ByDateDesc

/-- The join of `query_3_complaints_by_ward` before its `ORDER BY`:
`WHERE r.ward = ?`. -/
def query_3_join (p : Option Nat) (db : DB) : List ReportRow :=
  db.complaints.flatMap (fun c =>
    (db.residents.filter (fun r => r.resident_id == c.resident_id)).flatMap (fun r =>
      (db.service_categories.filter (fun sc => sc.category_id == c.category_id)).flatMap (fun sc =>
        match latestLog db.status_logs c.complaint_id with
        | some sl =>
          if intParamMatches p r.ward then
            [⟨c.complaint_id, residentName r, sc.category_name, c.title,
              c.submission_date, sl.status⟩]
          else []
        | none => [])))

/-- Report 3, `query_3_complaints_by_ward` (rows only). -/
def query_3_complaints_by_ward (p : Option Nat) (db : DB) : List ReportRow :=
  (query_3_join p db).insertionSort byDateDesc

/-- Result row of report 4 (resident history): no resident columns. -/
structure Q4Row where
  complaint_id : Nat
  category_name : String
  title : String
  submission_date : Nat
  status : String
deriving DecidableEq

/-- The join of `query_4_resident_history` before its `ORDER BY`: note
that the residents table is not joined, only `WHERE c.resident_id = ?`. -/
def query_4_join (p : Option Nat) (db : DB) : List Q4Row :=
  db.complaints.flatMap (fun c =>
    (db.service_categories.filter (fun sc => sc.category_id == c.category_id)).flatMap (fun sc =>
      match latestLog db.status_logs c.complaint_id with
      | some sl =>
        if intParamMatches p c.resident_id then
          [⟨c.complaint_id, sc.category_name, c.title, c.submission_date, sl.status⟩]
        else []
      | none => []))

/-- Descending submission-date comparison for `Q4Row`. -/
def q4ByDateDesc (a b : Q4Row) : Prop :=
  b.submission_date ≤ a.submission_date

instance : DecidableRel q4ByDateDesc :=
  fun a b => inferInstanceAs (Decidable (b.submission_date ≤ a.submission_date))

/-- Report 4, `query_4_resident_history` (rows only). -/
def query_4_resident_history (p : Option Nat) (db : DB) : List Q4Row :=
  (query_4_join p db).insertionSort q4ByDateDesc

/-- Result row of report 6 (overdue complaints). -/
structure Q6Row where
  complaint_id : Nat
  resident_name : String
  category_name : String
  title : String
  submission_date : Nat
  status : String
  days_old : Int
deriving DecidableEq

/-- The join of `query_6_overdue_complaints` before its `ORDER BY`.
`julianday('now')` is the day number of the current date, passed in as
`now`; `julianday('now') - julianday(c.submission_date)` is `now -
c.submission_date` over day numbers. -/
def query_6_join (now : Nat) (db : DB) : List Q6Row :=
  db.complaints.flatMap (fun c =>
    (db.residents.filter (fun r => r.resident_id == c.resident_id)).flatMap (fun r =>
      (db.service_categories.filter (fun sc => sc.category_id == c.category_id)).flatMap (fun sc =>
        match latestLog db.status_logs c.complaint_id with
        | some sl =>
          if sl.status ≠ "Resolved" ∧ 30 < (now : Int) - c.submission_date then
            [⟨c.complaint_id, residentName r, sc.category_name, c.title,
              c.submission_date, sl.status, (now : Int) - c.submission_date⟩]
          else []
        | none => [])))

/-- Descending age comparison for `ORDER BY days_old DESC`. -/
def q6ByAgeDesc (a b : Q6Row) : Prop :=
  b.days_old ≤ a.days_old

instance : DecidableRel q6ByAgeDesc :=
  fun a b => inferInstanceAs (Decidable (b.days_old ≤ a.days_old))

/-- Report 6, `query_6_overdue_complaints`. -/
def query_6_overdue_complaints (now : Nat) (db : DB) : List Q6Row :=
  (query_6_join now db).insertionSort q6ByAgeDesc

/-- Result row of report 7 (complaints by status): the resolver's
status_date, not the status, is projected. -/
structure Q7Row where
  complaint_id : Nat
  resident_name : String
  category_name : String
  title : String
  submission_date : Nat
  last_status_date : Nat
deriving DecidableEq

/-- The join of `query_7_complaints_by_status` before its `ORDER BY`:
`WHERE sl.status = ?`, an exact (case-sensitive) text match. -/
def query_7_join (status : String) (db : DB) : List Q7Row :=
  db.complaints.flatMap (fun c =>
    (db.residents.filter (fun r => r.resident_id == c.resident_id)).flatMap (fun r =>
      (db.service_categories.filter (fun sc => sc.category_id == c.category_id)).flatMap (fun sc =>
        match latestLog db.status_logs c.complaint_id with
        | some sl =>
          if sl.status == status then
            [⟨c.complaint_id, residentName r, sc.category_name, c.title,
              c.submission_date, sl.status_date⟩]
          else []
        | none => [])))

/-- Descending submission-date comparison for `Q7Row`. -/
def q7ByDateDesc (a b : Q7Row) : Prop :=
  b.submission_date ≤ a.submission_date

instance : DecidableRel q7ByDateDesc :=
  fun a b => inferInstanceAs (Decidable (b.submission_date ≤ a.submission_date))

/-- Report 7, `query_7_complaints_by_status`. -/
def query_7_complaints_by_status (status : String) (db : DB) : List Q7Row :=
  (query_7_join status db).insertionSort q7ByDateDesc

/-- `ROUND(x, 2)` on the SQL float `x`, embedded as exact half-up
rounding of a rational to two decimals (all rates here are
nonnegative, so half-up and half-away-from-zero agree). -/
def round2 (x : ℚ) : ℚ :=
  (⌊x * 100 + 1 / 2⌋ : ℚ) / 100

/-- A row of the pre-aggregation join of report 5: one per complaint
with a category row and a resolved current status. -/
structure Q5Join where
  complaint_id : Nat
  category_id : Nat
  category_name : String
  status : String
deriving DecidableEq

/-- The `FROM complaints c JOIN service_categories sc ... JOIN (...) sl`
relation of `query_5_resolution_statistics`, before `GROUP BY`. -/
def query_5_source (db : DB) : List Q5Join :=
  db.complaints.flatMap (fun c =>
    (db.service_categories.filter (fun sc => sc.category_id == c.category_id)).flatMap (fun sc =>
      match latestLog db.status_logs c.complaint_id with
      | some sl => [⟨c.complaint_id, sc.category_id, sc.category_name, sl.status⟩]
      | none => []))

/-- Distinct grouping keys of a list, in order of first appearance. -/
def groupKeys {α κ : Type} [DecidableEq κ] (key : α → κ) (rows : List α) : List κ :=
  rows.foldl (fun acc r => if key r ∈ acc then acc else acc ++ [key r]) []

/-- Result row of reports 5 and 9 sans group label: `COUNT(*)`, the
three `SUM(CASE WHEN ...)` counters and the `ROUND(... * 100.0 /
COUNT(*), 2)` rate. A REAL rounded to two decimals is an exact integer
count of hundredths, so `resolution_rate` stores that count (e.g.
`3333` for `33.33`), keeping every field kernel-computable. -/
structure Stats where
  total_complaints : Nat
  resolved : Nat
  in_progress : Nat
  submitted : Nat
  resolution_rate : Nat
deriving DecidableEq

/-- The aggregate columns of reports 5 and 9 over one group's statuses:
`(20000 * resolved + total) / (2 * total)` in natural division is
`resolved * 100 / total` rounded half-up to two decimals, in
hundredths (proved below as `rate_hundredths_eq`). -/
def aggregateStats (statuses : List String) : Stats :=
  { total_complaints := statuses.length
    resolved := statuses.countP (fun s => s == "Resolved")
    in_progress := statuses.countP (fun s => s == "In Progress")
    submitted := statuses.countP (fun s => s == "Submitted")
    resolution_rate :=
      (20000 * statuses.countP (fun s => s == "Resolved") + statuses.length) /
        (2 * statuses.length) }

/-- Result row of report 5. -/
structure Q5Row where
  category_name : String
  stats : Stats
deriving DecidableEq

/-- Descending total comparison for `ORDER BY total_complaints DESC`. -/
def q5ByTotalDesc (a b : Q5Row) : Prop :=
  b.stats.total_complaints ≤ a.stats.total_complaints

instance : DecidableRel q5ByTotalDesc :=
  fun a b => inferInstanceAs (Decidable (b.stats.total_complaints ≤ a.stats.total_complaints))

/-- Report 5, `query_5_resolution_statistics`: `GROUP BY sc.category_id,
sc.category_name ORDER BY total_complaints DESC`. -/
def query_5_resolution_statistics (db : DB) : List Q5Row :=
  ((groupKeys (fun j => (j.category_id, j.category_name)) (query_5_source db)).map
    (fun k =>
      ⟨k.2, aggregateStats (((query_5_source db).filter
        (fun j => (j.category_id, j.category_name) == k)).map (fun j => j.status))⟩)).insertionSort
    q5ByTotalDesc

/-- A row of the pre-aggregation join of report 9: one per complaint
with a resident row and a resolved current status. -/
structure Q9Join where
  complaint_id : Nat
  ward : Nat
  status : String
deriving DecidableEq

/-- The `FROM complaints c JOIN residents r ... JOIN (...) sl` relation
of `query_9_ward_performance`, before `GROUP BY r.ward`. -/
def query_9_source (db : DB) : List Q9Join :=
  db.complaints.flatMap (fun c =>
    (db.residents.filter (fun r => r.resident_id == c.resident_id)).flatMap (fun r =>
      match latestLog db.status_logs c.complaint_id with
      | some sl => [⟨c.complaint_id, r.ward, sl.status⟩]
      | none => []))

/-- Result row of report 9. -/
structure Q9Row where
  ward : Nat
  stats : Stats
deriving DecidableEq

/-- Descending total comparison for report 9's `ORDER BY`. -/
def q9ByTotalDesc (a b : Q9Row) : Prop :=
  b.stats.total_complaints ≤ a.stats.total_complaints

instance : DecidableRel q9ByTotalDesc :=
  fun a b => inferInstanceAs (Decidable (b.stats.total_complaints ≤ a.stats.total_complaints))

/-- Report 9, `query_9_ward_performance`: `GROUP BY r.ward ORDER BY
total_complaints DESC`. -/
def query_9_ward_performance (db : DB) : List Q9Row :=
  ((groupKeys (fun j => j.ward) (query_9_source db)).map
    (fun w =>
      ⟨w, aggregateStats (((query_9_source db).filter
        (fun j => j.ward == w)).map (fun j => j.status))⟩)).insertionSort q9ByTotalDesc

/-- Result row of report 10's detail query. -/
structure DetailRow where
  complaint_id : Nat
  resident_name : String
  category_name : String
  title : String
  description : String
  submission_date : Nat
deriving DecidableEq

/-- Report 10's detail query: `complaints ⋈ residents ⋈
service_categories WHERE c.complaint_id = ?`. -/
def detail_query (p : Option Nat) (db : DB) : List DetailRow :=
  db.complaints.flatMap (fun c =>
    (db.residents.filter (fun r => r.resident_id == c.resident_id)).flatMap (fun r =>
      (db.service_categories.filter (fun sc => sc.category_id == c.category_id)).flatMap (fun sc =>
        if intParamMatches p c.complaint_id then
          [⟨c.complaint_id, residentName r, sc.category_name, c.title, c.description,
            c.submission_date⟩]
        else [])))

/-- Result row of report 10's timeline query. -/
structure TimelineRow where
  status : String
  status_date : Nat
deriving DecidableEq

/-- Ascending status-date comparison for `ORDER BY status_date ASC`. -/
def byStatusDateAsc (a b : TimelineRow) : Prop :=
  a.status_date ≤ b.status_date

instance : DecidableRel byStatusDateAsc :=
  fun a b => inferInstanceAs (Decidable (a.status_date ≤ b.status_date))

/-- Report 10's timeline query: `SELECT status, status_date FROM
status_logs WHERE complaint_id = ? ORDER BY status_date ASC`. -/
def timeline_query (p : Option Nat) (db : DB) : List TimelineRow :=
  ((db.status_logs.filter (fun l => intParamMatches p l.complaint_id)).map
    (fun l => (⟨l.status, l.status_date⟩ : TimelineRow))).insertionSort byStatusDateAsc

/-- The observable outcome of report 10: either the distinct
`"No complaint found with ID ..."` early return (the timeline query is
never run), or the detail row followed by the timeline. -/
inductive TimelineOutput where
  | notFound
  | found (detail : DetailRow) (timeline : List TimelineRow)
deriving DecidableEq

/-- `query_10_complaint_timeline` on an already-bound parameter: run the
detail query; if it is empty print not-found and return, otherwise take
`details[0]` and run the timeline query. -/
def query_10_run (p : Option Nat) (db : DB) : TimelineOutput :=
  match detail_query p db with
  | [] => TimelineOutput.notFound
  | d :: _ => TimelineOutput.found d (timeline_query p db)

/-- Report 10, `query_10_complaint_timeline`, from the raw user input. -/
def query_10_complaint_timeline (input : String) (db : DB) : TimelineOutput :=
  query_10_run (sqlIntParam input) db

/-- The observable outcome of the `query_3_complaints_by_ward` handler:
either the rendered table (title and rows), or the `except ValueError`
branch printing `"Invalid ward number entered."`. -/
inductive WardHandlerOutput where
  | table (title : String) (rows : List ReportRow)
  | invalidWard
deriving DecidableEq

/-- The `query_3_complaints_by_ward` handler body: `input()` returns the
raw text, which is bound directly as the query parameter; nothing in the
`try` block converts it to a number or raises `ValueError`, so the
`except ValueError` branch is unreachable and the handler always renders
the table. -/
def query_3_handler (ward : String) (db : DB) : WardHandlerOutput :=
  WardHandlerOutput.table ("Complaints for Ward " ++ ward)
    (query_3_complaints_by_ward (sqlIntParam ward) db)

/-- The `query_4_resident_history` handler: runs the history rows query
and a separate name lookup (`SELECT ... FROM residents WHERE resident_id
= ?`), falling back to `"Resident <input>"` when the lookup is empty. -/
def query_4_handler (input : String) (db : DB) : String × List Q4Row :=
  let results := query_4_resident_history (sqlIntParam input) db
  let name_result := (db.residents.filter
    (fun r => intParamMatches (sqlIntParam input) r.resident_id)).map residentName
  let resident_name := match name_result with
    | n :: _ => n
    | [] => "Resident " ++ input
  ("Complaint History for " ++ resident_name, results)

/-- INSERT OR REPLACE into a table whose id is the rowid: a row with an
existing id replaces that row in place (same rowid, same scan
position); otherwise the row is appended. `ident` reads the identity
column. -/
def upsert {α : Type} (ident : α → Nat) (t : List α) (r : α) : List α :=
  if (t.filter (fun x => ident x == ident r)).isEmpty then t ++ [r]
  else t.map (fun x => if ident x == ident r then r else x)

/-- One source of `load_csv_data`: every parsed record upserted in file
order. -/
def loadTable {α : Type} (ident : α → Nat) (t : List α) (rows : List α) : List α :=
  rows.foldl (upsert ident) t

/-- The four optional ingestion sources of `load_csv_data`; `none`
models a source file that does not exist and is skipped. -/
structure CsvFiles where
  residents : Option (List Resident)
  categories : Option (List ServiceCategory)
  complaints : Option (List Complaint)
  status_logs : Option (List StatusLog)

/-- A source that exists is loaded, a missing one leaves its table
untouched. -/
def loadSource {α : Type} (ident : α → Nat) (t : List α) : Option (List α) → List α
  | some rows => loadTable ident t rows
  | none => t

/-- `load_csv_data`: ingest each of the four sources into its table. -/
def load_csv_data (db : DB) (files : CsvFiles) : DB :=
  { residents := loadSource (fun r => r.resident_id) db.residents files.residents
    service_categories :=
      loadSource (fun c => c.category_id) db.service_categories files.categories
    complaints := loadSource (fun c => c.complaint_id) db.complaints files.complaints
    status_logs := loadSource (fun l => l.log_id) db.status_logs files.status_logs }

/-- A line of sixty `=` signs. -/
def eqLine : String :=
  String.mk (List.replicate 60 '=')

/-- Python's `f"{s:15}"`: left-justify to a minimum width of 15,
padding with spaces on the right, never truncating. -/
def ljust15 (s : String) : String :=
  s ++ String.mk (List.replicate (15 - s.length) ' ')

/-- A rendered row is the ordered column-name/value pairs of a
`sqlite3.Row`, values already passed through `str()`. -/
def colValue (row : List (String × String)) (col : String) : String :=
  match row.lookup col with
  | some v => v
  | none => ""

/-- `print_results`, as the list of lines it prints: the banner, then
either the `"No results found."` line, or the header (the first row's
columns in their result-defined order), separator, one line per row and
the trailing record count. -/
def print_results (results : List (List (String × String))) (title : String) : List String :=
  ["", eqLine, title, eqLine] ++
    match results with
    | [] => ["No results found."]
    | first :: _ =>
      let columns := first.map Prod.fst
      let header := String.intercalate " | " (columns.map ljust15)
      header :: String.mk (List.replicate header.length '-') ::
        results.map (fun row =>
          String.intercalate " | " (columns.map (fun col => ljust15 (colValue row col)))) ++
        ["", "Total records: " ++ toString results.length]

/-- The store connection: `conn.close()` marks it closed. -/
structure Connection where
  closed : Bool
deriving DecidableEq

/-- `ComplaintsDatabase` connection state: `self.conn` starts as `None`
and is never reset to `None` by `disconnect`. -/
structure ComplaintsDatabase where
  conn : Option Connection
deriving DecidableEq

/-- `disconnect`: `if self.conn: self.conn.close()` — closes the held
connection when one exists, otherwise does nothing; a total function,
it never raises (closing an already-closed sqlite3 connection is a
no-op). -/
def disconnect (db : ComplaintsDatabase) : ComplaintsDatabase :=
  match db.conn with
  | some c => { conn := some { c with closed := true } }
  | none => db

/-- The session is released: no open connection is held. -/
def sessionReleased (db : ComplaintsDatabase) : Prop :=
  ∀ c, db.conn = some c → c.closed = true

/-- How the `try` body of `run` ends: falls off normally (choice `0`),
is interrupted (`KeyboardInterrupt`), or raises any other exception. -/
inductive BodyOutcome where
  | completed
  | keyboardInterrupt
  | raised (msg : String)

/-- The `try/except/except/finally` skeleton of `run`: whatever the
body's outcome and whatever connection state it left behind, each
`except` arm only prints, and the `finally` arm runs
`self.db.disconnect()`. Returns the messages of the taken arm and the
final connection state. -/
def run_cleanup (outcome : BodyOutcome) (db : ComplaintsDatabase) :
    List String × ComplaintsDatabase :=
  match outcome with
  | BodyOutcome.completed => ([], disconnect db)
  | BodyOutcome.keyboardInterrupt => (["", "", "Exiting..."], disconnect db)
  | BodyOutcome.raised msg => (["An error occurred: " ++ msg], disconnect db)

/-- The Scenario A store of the spec: one resident, one category, one
complaint, and a log whose maximum-date event is `Resolved`. -/
def scenarioA : DB :=
  { residents := [⟨1, "A", "B", 3, "", ""⟩]
    service_categories := [⟨1, "Pothole"⟩]
    complaints := [⟨1, 1, 1, "Hole", "desc", 20240101⟩]
    status_logs := [⟨1, 1, "Submitted", 20240101⟩, ⟨2, 1, "Resolved", 20240110⟩] }

/-- The Scenario B store: as Scenario A, but the maximum-date event is
`In Progress`, dated after an earlier `Resolved` event. -/
def scenarioB : DB :=
  { residents := [⟨1, "A", "B", 3, "", ""⟩]
    service_categories := [⟨1, "Pothole"⟩]
    complaints := [⟨1, 1, 1, "Hole", "desc", 20240101⟩]
    status_logs := [⟨1, 1, "Submitted", 20240101⟩, ⟨2, 1, "Resolved", 20240105⟩,
      ⟨3, 1, "In Progress", 20240110⟩] }

/-- Scenario B with the log rows stored in the opposite order: the
maximum-date `In Progress` event appears first in the log. -/
def scenarioBRev : DB :=
  { residents := [⟨1, "A", "B", 3, "", ""⟩]
    service_categories := [⟨1, "Pothole"⟩]
    complaints := [⟨1, 1, 1, "Hole", "desc", 20240101⟩]
    status_logs := [⟨3, 1, "In Progress", 20240110⟩, ⟨2, 1, "Resolved", 20240105⟩,
      ⟨1, 1, "Submitted", 20240101⟩] }

/-- The last record in a source with a given identity: the one whose
upsert survives re-ingestion. -/
def lastWith {α : Type} (ident : α → Nat) (rows : List α) (i : Nat) : Option α :=
  rows.foldl (fun acc r => if ident r = i then some r else acc) none

/-- Ingestion sources for the C5 witness: a new resident, a replacement
for complaint 1, a new status event, and a missing categories file. -/
def sampleFiles : CsvFiles :=
  { residents := some [⟨2, "C", "D", 4, "", ""⟩, ⟨1, "A", "Z", 3, "", ""⟩]
    categories := none
    complaints := some [⟨1, 1, 1, "Hole again", "d", 20240202⟩]
    status_logs := some [⟨7, 1, "In Progress", 20240203⟩] }

/-- A store where complaint 1 references resident 7 although no
residents row with id 7 (or any row at all) exists. -/
def scenarioOrphan : DB :=
  { residents := []
    service_categories := [⟨1, "Pothole"⟩]
    complaints := [⟨1, 7, 1, "Hole", "desc", 20240101⟩]
    status_logs := [⟨1, 1, "Submitted", 20240101⟩] }

theorem pickLatest_eq_none_iff (l : List StatusLog) : pickLatest l = none ↔ l = [] := by
  cases l with
  | nil => simp [pickLatest]
  | cons a as =>
    simp only [pickLatest]
    cases pickLatest as with
    | none => simp
    | some b =>
      by_cases hd : a.status_date < b.status_date <;> simp [hd]

theorem pickLatest_spec :
    ∀ (l : List StatusLog) (b : StatusLog), pickLatest l = some b →
      b ∈ l ∧ ∀ x ∈ l, x.status_date ≤ b.status_date := by
  intro l
  induction l with
  | nil => intro b h; simp [pickLatest] at h
  | cons a as ih =>
    intro b h
    simp only [pickLatest] at h
    cases hp : pickLatest as with
    | none =>
      rw [hp] at h
      obtain rfl : a = b := by simpa using h
      have : as = [] := (pickLatest_eq_none_iff as).mp hp
      subst this
      simp
    | some c =>
      rw [hp] at h
      obtain ⟨hmem, hmax⟩ := ih c hp
      by_cases hd : a.status_date < c.status_date
      · obtain rfl : c = b := by simpa [hd] using h
        refine ⟨List.mem_cons_of_mem a hmem, ?_⟩
        intro x hx
        rcases List.mem_cons.mp hx with rfl | hx
        · exact le_of_lt hd
        · exact hmax x hx
      · obtain rfl : a = b := by simpa [hd] using h
        refine ⟨List.mem_cons_self a as, ?_⟩
        intro x hx
        rcases List.mem_cons.mp hx with rfl | hx
        · exact le_rfl
        · exact le_trans (hmax x hx) (le_of_not_lt hd)

theorem latestLog_eq_none_iff (logs : List StatusLog) (cid : Nat) :
    latestLog logs cid = none ↔ logs.filter (fun l => l.complaint_id == cid) = [] :=
  pickLatest_eq_none_iff _

theorem latestLog_spec {logs : List StatusLog} {cid : Nat} {b : StatusLog}
    (h : latestLog logs cid = some b) :
    b ∈ logs ∧ b.complaint_id = cid ∧
      ∀ x ∈ logs, x.complaint_id = cid → x.status_date ≤ b.status_date := by
  obtain ⟨hmem, hmax⟩ := pickLatest_spec _ _ h
  rw [List.mem_filter] at hmem
  refine ⟨hmem.1, by simpa using hmem.2, ?_⟩
  intro x hx hcid
  exact hmax x (List.mem_filter.mpr ⟨hx, by simpa using hcid⟩)

theorem query_1_join_resolved {db : DB} {row : ReportRow} (h : row ∈ query_1_join db) :
    ∃ sl, latestLog db.status_logs row.complaint_id = some sl := by
  simp only [query_1_join, List.mem_flatMap] at h
  obtain ⟨c, hc, r, hr, sc, hsc, h⟩ := h
  cases hl : latestLog db.status_logs c.complaint_id with
  | none => rw [hl] at h; simp at h
  | some sl =>
    rw [hl] at h
    by_cases hs : sl.status = "Resolved"
    · simp [hs] at h
    · simp [hs] at h
      subst h
      exact ⟨sl, hl⟩

theorem query_2_join_resolved {p : Option Nat} {db : DB} {row : Q2Row}
    (h : row ∈ query_2_join p db) :
    ∃ sl, latestLog db.status_logs row.complaint_id = some sl := by
  simp only [query_2_join, List.mem_flatMap] at h
  obtain ⟨c, hc, r, hr, sc, hsc, h⟩ := h
  cases hl : latestLog db.status_logs c.complaint_id with
  | none => rw [hl] at h; simp at h
  | some sl =>
    rw [hl] at h
    by_cases hs : intParamMatches p c.category_id = true
    · simp [hs] at h
      subst h
      exact ⟨sl, hl⟩
    · simp [hs] at h

theorem query_3_join_resolved {p : Option Nat} {db : DB} {row : ReportRow}
    (h : row ∈ query_3_join p db) :
    ∃ sl, latestLog db.status_logs row.complaint_id = some sl := by
  simp only [query_3_join, List.mem_flatMap] at h
  obtain ⟨c, hc, r, hr, sc, hsc, h⟩ := h
  cases hl : latestLog db.status_logs c.complaint_id with
  | none => rw [hl] at h; simp at h
  | some sl =>
    rw [hl] at h
    by_cases hs : intParamMatches p r.ward = true
    · simp [hs] at h
      subst h
      exact ⟨sl, hl⟩
    · simp [hs] at h

theorem query_4_join_resolved {p : Option Nat} {db : DB} {row : Q4Row}
    (h : row ∈ query_4_join p db) :
    ∃ sl, latestLog db.status_logs row.complaint_id = some sl := by
  simp only [query_4_join, List.mem_flatMap] at h
  obtain ⟨c, hc, sc, hsc, h⟩ := h
  cases hl : latestLog db.status_logs c.complaint_id with
  | none => rw [hl] at h; simp at h
  | some sl =>
    rw [hl] at h
    by_cases hs : intParamMatches p c.resident_id = true
    · simp [hs] at h
      subst h
      exact ⟨sl, hl⟩
    · simp [hs] at h

theorem query_5_source_resolved {db : DB} {j : Q5Join} (h : j ∈ query_5_source db) :
    ∃ sl, latestLog db.status_logs j.complaint_id = some sl := by
  simp only [query_5_source, List.mem_flatMap] at h
  obtain ⟨c, hc, sc, hsc, h⟩ := h
  cases hl : latestLog db.status_logs c.complaint_id with
  | none => rw [hl] at h; simp at h
  | some sl =>
    rw [hl] at h
    simp at h
    subst h
    exact ⟨sl, hl⟩

theorem query_6_join_resolved {now : Nat} {db : DB} {row : Q6Row}
    (h : row ∈ query_6_join now db) :
    ∃ sl, latestLog db.status_logs row.complaint_id = some sl := by
  simp only [query_6_join, List.mem_flatMap] at h
  obtain ⟨c, hc, r, hr, sc, hsc, h⟩ := h
  cases hl : latestLog db.status_logs c.complaint_id with
  | none => rw [hl] at h; simp at h
  | some sl =>
    rw [hl] at h
    by_cases hs : sl.status ≠ "Resolved" ∧ 30 < (now : Int) - c.submission_date
    · simp [hs] at h
      subst h
      exact ⟨sl, hl⟩
    · simp [hs] at h

theorem query_7_join_resolved {s : String} {db : DB} {row : Q7Row}
    (h : row ∈ query_7_join s db) :
    ∃ sl, latestLog db.status_logs row.complaint_id = some sl := by
  simp only [query_7_join, List.mem_flatMap] at h
  obtain ⟨c, hc, r, hr, sc, hsc, h⟩ := h
  cases hl : latestLog db.status_logs c.complaint_id with
  | none => rw [hl] at h; simp at h
  | some sl =>
    rw [hl] at h
    by_cases hs : (sl.status == s) = true
    · simp [hs] at h
      subst h
      exact ⟨sl, hl⟩
    · simp [hs] at h

theorem query_9_source_resolved {db : DB} {j : Q9Join} (h : j ∈ query_9_source db) :
    ∃ sl, latestLog db.status_logs j.complaint_id = some sl := by
  simp only [query_9_source, List.mem_flatMap] at h
  obtain ⟨c, hc, r, hr, h⟩ := h
  cases hl : latestLog db.status_logs c.complaint_id with
  | none => rw [hl] at h; simp at h
  | some sl =>
    rw [hl] at h
    simp at h
    subst h
    exact ⟨sl, hl⟩

/-- C1: for every complaint with at least one status event, the
latest-status resolver (the `ROW_NUMBER`-over-`status_date`-descending
subquery joined with `rn = 1`) yields the status of the event with the
maximum event date for that complaint; for every complaint with zero
status events, the resolver yields no current status and the complaint
is excluded from every report that joins on the resolver (reports 1-7
and 9). -/
theorem resolver_correct (db : DB) (cid : Nat) :
    (db.status_logs.filter (fun l => l.complaint_id == cid) ≠ [] →
      ∃ l, latestLog db.status_logs cid = some l ∧ l ∈ db.status_logs ∧
        l.complaint_id = cid ∧ currentStatus db cid = some l.status ∧
        ∀ x ∈ db.status_logs, x.complaint_id = cid → x.status_date ≤ l.status_date) ∧
    (db.status_logs.filter (fun l => l.complaint_id == cid) = [] →
      latestLog db.status_logs cid = none ∧ currentStatus db cid = none ∧
      (∀ row ∈ query_1_active_complaints db, row.complaint_id ≠ cid) ∧
      (∀ p, ∀ row ∈ query_2_complaints_by_category p db, row.complaint_id ≠ cid) ∧
      (∀ p, ∀ row ∈ query_3_complaints_by_ward p db, row.complaint_id ≠ cid) ∧
      (∀ p, ∀ row ∈ query_4_resident_history p db, row.complaint_id ≠ cid) ∧
      (∀ j ∈ query_5_source db, j.complaint_id ≠ cid) ∧
      (∀ now, ∀ row ∈ query_6_overdue_complaints now db, row.complaint_id ≠ cid) ∧
      (∀ s, ∀ row ∈ query_7_complaints_by_status s db, row.complaint_id ≠ cid) ∧
      (∀ j ∈ query_9_source db, j.complaint_id ≠ cid)) := by
  constructor
  · intro hne
    cases hl : latestLog db.status_logs cid with
    | none => exact absurd ((latestLog_eq_none_iff _ _).mp hl) hne
    | some l =>
      obtain ⟨hmem, hcid, hmax⟩ := latestLog_spec hl
      exact ⟨l, rfl, hmem, hcid, by simp [currentStatus, hl], hmax⟩
  · intro hemp
    have hnone : latestLog db.status_logs cid = none := (latestLog_eq_none_iff _ _).mpr hemp
    refine ⟨hnone, by simp [currentStatus, hnone], ?_, ?_, ?_, ?_, ?_, ?_, ?_, ?_⟩
    · intro row hrow hcid
      have hrow' : row ∈ query_1_join db :=
        (List.perm_insertionSort byDateDesc (query_1_join db)).mem_iff.mp hrow
      obtain ⟨sl, hsl⟩ := query_1_join_resolved hrow'
      rw [hcid, hnone] at hsl
      exact Option.noConfusion hsl
    · intro p row hrow hcid
      have hrow' : row ∈ query_2_join p db :=
        (List.perm_insertionSort q2ByDateDesc (query_2_join p db)).mem_iff.mp hrow
      obtain ⟨sl, hsl⟩ := query_2_join_resolved hrow'
      rw [hcid, hnone] at hsl
      exact Option.noConfusion hsl
    · intro p row hrow hcid
      have hrow' : row ∈ query_3_join p db :=
        (List.perm_insertionSort byDateDesc (query_3_join p db)).mem_iff.mp hrow
      obtain ⟨sl, hsl⟩ := query_3_join_resolved hrow'
      rw [hcid, hnone] at hsl
      exact Option.noConfusion hsl
    · intro p row hrow hcid
      have hrow' : row ∈ query_4_join p db :=
        (List.perm_insertionSort q4ByDateDesc (query_4_join p db)).mem_iff.mp hrow
      obtain ⟨sl, hsl⟩ := query_4_join_resolved hrow'
      rw [hcid, hnone] at hsl
      exact Option.noConfusion hsl
    · intro j hj hcid
      obtain ⟨sl, hsl⟩ := query_5_source_resolved hj
      rw [hcid, hnone] at hsl
      exact Option.noConfusion hsl
    · intro now row hrow hcid
      have hrow' : row ∈ query_6_join now db :=
        (List.perm_insertionSort q6ByAgeDesc (query_6_join now db)).mem_iff.mp hrow
      obtain ⟨sl, hsl⟩ := query_6_join_resolved hrow'
      rw [hcid, hnone] at hsl
      exact Option.noConfusion hsl
    · intro s row hrow hcid
      have hrow' : row ∈ query_7_join s db :=
        (List.perm_insertionSort q7ByDateDesc (query_7_join s db)).mem_iff.mp hrow
      obtain ⟨sl, hsl⟩ := query_7_join_resolved hrow'
      rw [hcid, hnone] at hsl
      exact Option.noConfusion hsl
    · intro j hj hcid
      obtain ⟨sl, hsl⟩ := query_9_source_resolved hj
      rw [hcid, hnone] at hsl
      exact Option.noConfusion hsl

/-- Witness for C1 at the Scenario A store: complaint 1 has status
events and resolves to the maximum-date one; complaint 5 has none and
resolves to nothing. -/
theorem resolver_correct_witness :
    (∃ l, latestLog scenarioA.status_logs 1 = some l ∧ l ∈ scenarioA.status_logs ∧
      l.complaint_id = 1 ∧ currentStatus scenarioA 1 = some l.status ∧
      ∀ x ∈ scenarioA.status_logs, x.complaint_id = 1 → x.status_date ≤ l.status_date) ∧
    latestLog scenarioA.status_logs 5 = none :=
  ⟨(resolver_correct scenarioA 1).1 (by decide),
   ((resolver_correct scenarioA 5).2 (by decide)).1⟩

theorem filter_key_eq_singleton {α : Type} (key : α → Nat) :
    ∀ (l : List α), (l.map key).Nodup → ∀ x ∈ l, ∀ k, key x = k →
      l.filter (fun a => key a == k) = [x] := by
  intro l
  induction l with
  | nil => intro _ x hx; simp at hx
  | cons a as ih =>
    intro hnd x hx k hk
    rw [List.map_cons, List.nodup_cons] at hnd
    rcases List.mem_cons.mp hx with rfl | hx
    · have hz : as.filter (fun a => key a == k) = [] := by
        rw [List.filter_eq_nil_iff]
        intro y hy
        simp only [beq_iff_eq]
        intro hky
        exact hnd.1 (hky.trans hk.symm ▸ List.mem_map_of_mem key hy)
      simp [List.filter_cons, hk, hz]
    · have hne : ¬(key a == k) = true := by
        simp only [beq_iff_eq]
        intro hka
        exact hnd.1 (by rw [hka, ← hk]; exact List.mem_map_of_mem key hx)
      rw [List.filter_cons, if_neg hne]
      exact ih hnd.2 x hx k hk

theorem flatMap_eq_of_support {α β : Type} (key : α → Nat) :
    ∀ (l : List α) (g : α → List β) (c : α), (l.map key).Nodup → c ∈ l →
      (∀ c' ∈ l, key c' ≠ key c → g c' = []) → l.flatMap g = g c := by
  intro l
  induction l with
  | nil => intro g c _ hc; simp at hc
  | cons a as ih =>
    intro g c hnd hc hz
    rw [List.map_cons, List.nodup_cons] at hnd
    rcases List.mem_cons.mp hc with rfl | hc
    · have hrest : as.flatMap g = [] := by
        rw [List.flatMap_eq_nil_iff]
        intro y hy
        refine hz y (List.mem_cons_of_mem _ hy) ?_
        intro hk
        exact hnd.1 (hk ▸ List.mem_map_of_mem key hy)
      rw [List.flatMap_cons, hrest, List.append_nil]
    · have ha : g a = [] := by
        refine hz a (List.mem_cons_self _ _) ?_
        intro hk
        exact hnd.1 (hk ▸ List.mem_map_of_mem key hc)
      rw [List.flatMap_cons, ha, List.nil_append]
      exact ih g c hnd.2 hc (fun c' hc' => hz c' (List.mem_cons_of_mem a hc'))

theorem mem_query_1_join {db : DB} {row : ReportRow} :
    row ∈ query_1_join db ↔
      ∃ c ∈ db.complaints, ∃ r ∈ db.residents, r.resident_id = c.resident_id ∧
        ∃ sc ∈ db.service_categories, sc.category_id = c.category_id ∧
        ∃ sl, latestLog db.status_logs c.complaint_id = some sl ∧ sl.status ≠ "Resolved" ∧
          row = ⟨c.complaint_id, residentName r, sc.category_name, c.title,
            c.submission_date, sl.status⟩ := by
  constructor
  · intro h
    simp only [query_1_join, List.mem_flatMap, List.mem_filter, beq_iff_eq] at h
    obtain ⟨c, hc, r, ⟨hr, hrid⟩, sc, ⟨hsc, hscid⟩, h⟩ := h
    cases hl : latestLog db.status_logs c.complaint_id with
    | none => rw [hl] at h; simp at h
    | some sl =>
      rw [hl] at h
      by_cases hs : sl.status = "Resolved"
      · simp [hs] at h
      · simp [hs] at h
        exact ⟨c, hc, r, hr, hrid, sc, hsc, hscid, sl, hl, hs, h⟩
  · rintro ⟨c, hc, r, hr, hrid, sc, hsc, hscid, sl, hsl, hs, rfl⟩
    simp only [query_1_join, List.mem_flatMap, List.mem_filter, beq_iff_eq]
    refine ⟨c, hc, r, ⟨hr, hrid⟩, sc, ⟨hsc, hscid⟩, ?_⟩
    rw [hsl]
    simp [hs]

theorem query_1_join_filter_of_resolved {db : DB} {cid : Nat} {sl : StatusLog}
    (hsl : latestLog db.status_logs cid = some sl) (hs : sl.status = "Resolved") :
    (query_1_join db).filter (fun row => row.complaint_id == cid) = [] := by
  rw [List.filter_eq_nil_iff]
  intro row hrow hp
  obtain ⟨c, _, r, _, _, sc, _, _, sl', hsl', hs', hrow⟩ := mem_query_1_join.mp hrow
  rw [beq_iff_eq] at hp
  subst hrow
  simp only at hp
  rw [hp, hsl] at hsl'
  obtain rfl : sl = sl' := by simpa using hsl'
  exact hs' hs

theorem query_1_join_filter_of_active {db : DB} {c : Complaint} {r : Resident}
    {sc : ServiceCategory} {sl : StatusLog}
    (hres : (db.residents.map (fun x => x.resident_id)).Nodup)
    (hcat : (db.service_categories.map (fun x => x.category_id)).Nodup)
    (hcomp : (db.complaints.map (fun x => x.complaint_id)).Nodup)
    (hc : c ∈ db.complaints) (hr : r ∈ db.residents) (hrid : r.resident_id = c.resident_id)
    (hsc : sc ∈ db.service_categories) (hscid : sc.category_id = c.category_id)
    (hsl : latestLog db.status_logs c.complaint_id = some sl) (hs : sl.status ≠ "Resolved") :
    (query_1_join db).filter (fun row => row.complaint_id == c.complaint_id) =
      [⟨c.complaint_id, residentName r, sc.category_name, c.title,
        c.submission_date, sl.status⟩] := by
  rw [query_1_join, List.filter_flatMap]
  refine (flatMap_eq_of_support (fun x => x.complaint_id) db.complaints _ c hcomp hc ?_).trans ?_
  · intro c' hc' hne
    rw [List.filter_eq_nil_iff]
    intro row hrow
    simp only [List.mem_flatMap, List.mem_filter, beq_iff_eq] at hrow
    obtain ⟨r', ⟨hr', _⟩, sc', ⟨hsc', _⟩, hrow⟩ := hrow
    cases hl : latestLog db.status_logs c'.complaint_id with
    | none => rw [hl] at hrow; simp at hrow
    | some sl' =>
      rw [hl] at hrow
      by_cases hss : sl'.status = "Resolved"
      · simp [hss] at hrow
      · simp [hss] at hrow
        subst hrow
        simpa using hne
  · rw [filter_key_eq_singleton (fun x => x.resident_id) db.residents hres r hr
      c.resident_id hrid]
    simp only [List.flatMap_cons, List.flatMap_nil, List.append_nil]
    rw [filter_key_eq_singleton (fun x => x.category_id) db.service_categories hcat sc hsc
      c.category_id hscid]
    simp only [List.flatMap_cons, List.flatMap_nil, List.append_nil]
    rw [hsl]
    simp [hs]

/-- C2: the Active Complaints report (report 1) returns exactly the
complaints whose current status (per the resolver) is not `"Resolved"`,
ordered by submission date descending; a complaint whose max-date event
is `"Resolved"` yields zero rows, and a complaint whose max-date event
is `"In Progress"` (even if an earlier-dated `"Resolved"` event exists)
yields exactly one row with status `"In Progress"`, regardless of the
order events appear in the log. Stated for stores satisfying the data
model's primary-key and referential invariants. -/
theorem active_complaints_report_correct (db : DB)
    (hres : (db.residents.map (fun x => x.resident_id)).Nodup)
    (hcat : (db.service_categories.map (fun x => x.category_id)).Nodup)
    (hcomp : (db.complaints.map (fun x => x.complaint_id)).Nodup) :
    (query_1_active_complaints db).Pairwise
      (fun a b => b.submission_date ≤ a.submission_date) ∧
    (∀ c ∈ db.complaints, ∀ sl, latestLog db.status_logs c.complaint_id = some sl →
      (sl.status = "Resolved" →
        (query_1_active_complaints db).filter
          (fun row => row.complaint_id == c.complaint_id) = []) ∧
      (sl.status ≠ "Resolved" →
        ∀ r ∈ db.residents, r.resident_id = c.resident_id →
        ∀ sc ∈ db.service_categories, sc.category_id = c.category_id →
        (query_1_active_complaints db).filter
          (fun row => row.complaint_id == c.complaint_id) =
          [⟨c.complaint_id, residentName r, sc.category_name, c.title,
            c.submission_date, sl.status⟩])) ∧
    query_1_active_complaints scenarioA = [] ∧
    query_1_active_complaints scenarioB =
      [⟨1, "A B", "Pothole", "Hole", 20240101, "In Progress"⟩] ∧
    query_1_active_complaints scenarioBRev =
      [⟨1, "A B", "Pothole", "Hole", 20240101, "In Progress"⟩] := by
  refine ⟨?_, ?_, by decide, by decide, by decide⟩
  · haveI : IsTotal ReportRow byDateDesc :=
      ⟨fun a b => Nat.le_total b.submission_date a.submission_date⟩
    haveI : IsTrans ReportRow byDateDesc :=
      ⟨fun a b c hab hbc => le_trans hbc hab⟩
    exact List.sorted_insertionSort byDateDesc (query_1_join db)
  · intro c hc sl hsl
    constructor
    · intro hs
      have hperm := (List.perm_insertionSort byDateDesc (query_1_join db)).filter
        (fun row => row.complaint_id == c.complaint_id)
      rw [query_1_join_filter_of_resolved hsl hs] at hperm
      exact List.Perm.eq_nil hperm
    · intro hs r hr hrid sc hsc hscid
      have hperm := (List.perm_insertionSort byDateDesc (query_1_join db)).filter
        (fun row => row.complaint_id == c.complaint_id)
      rw [query_1_join_filter_of_active hres hcat hcomp hc hr hrid hsc hscid hsl hs] at hperm
      exact List.perm_singleton.mp hperm

/-- Witness for C2 at the Scenario B store: the resolver of complaint 1
yields the `In Progress` event, and the report returns exactly that one
row. -/
theorem active_complaints_report_correct_witness :
    (query_1_active_complaints scenarioB).filter (fun row => row.complaint_id == 1) =
      [⟨1, "A B", "Pothole", "Hole", 20240101, "In Progress"⟩] := by
  have h := ((active_complaints_report_correct scenarioB (by decide) (by decide)
    (by decide)).2.1 ⟨1, 1, 1, "Hole", "desc", 20240101⟩ (by decide)
    ⟨3, 1, "In Progress", 20240110⟩ (by decide)).2
  exact h (by decide) ⟨1, "A", "B", 3, "", ""⟩ (by decide) rfl ⟨1, "Pothole"⟩ (by decide) rfl

theorem countP_statuses_le_length (ss : List String) :
    ss.countP (fun s => s == "Resolved") + ss.countP (fun s => s == "In Progress") +
      ss.countP (fun s => s == "Submitted") ≤ ss.length := by
  induction ss with
  | nil => simp
  | cons a as ih =>
    simp only [List.countP_cons, List.length_cons]
    have h1 : (if (a == "Resolved") = true then 1 else 0) +
        (if (a == "In Progress") = true then 1 else 0) +
        (if (a == "Submitted") = true then 1 else 0) ≤ 1 := by
      by_cases ha : a = "Resolved" <;> by_cases hb : a = "In Progress" <;>
        by_cases hc : a = "Submitted" <;> simp_all
    omega

theorem groupKeys_mem {α κ : Type} [DecidableEq κ] (key : α → κ) (rows : List α) (k : κ)
    (h : k ∈ groupKeys key rows) : ∃ r ∈ rows, key r = k := by
  have main : ∀ (rows : List α) (acc : List κ),
      k ∈ rows.foldl (fun acc r => if key r ∈ acc then acc else acc ++ [key r]) acc →
      k ∈ acc ∨ ∃ r ∈ rows, key r = k := by
    intro rows
    induction rows with
    | nil => intro acc h; exact Or.inl h
    | cons a as ih =>
      intro acc h
      rcases ih _ h with hacc | ⟨r, hr, hkr⟩
      · have hacc' : k ∈ if key a ∈ acc then acc else acc ++ [key a] := hacc
        by_cases hmem : key a ∈ acc
        · rw [if_pos hmem] at hacc'
          exact Or.inl hacc'
        · rw [if_neg hmem] at hacc'
          rcases List.mem_append.mp hacc' with hacc'' | hone
          · exact Or.inl hacc''
          · exact Or.inr ⟨a, List.mem_cons_self _ _, (List.mem_singleton.mp hone).symm⟩
      · exact Or.inr ⟨r, List.mem_cons_of_mem _ hr, hkr⟩
  rcases main rows [] h with hacc | hfound
  · simp at hacc
  · exact hfound

theorem rate_hundredths_eq (r t : ℕ) (ht : 0 < t) :
    (((20000 * r + t) / (2 * t) : ℕ) : ℚ) / 100 =
      round2 ((r : ℚ) * 100 / (t : ℚ)) := by
  have ht' : (t : ℚ) ≠ 0 := Nat.cast_ne_zero.mpr ht.ne'
  have key : (r : ℚ) * 100 / (t : ℚ) * 100 + 1 / 2 =
      ((20000 * r + t : ℕ) : ℚ) / ((2 * t : ℕ) : ℚ) := by
    push_cast
    field_simp
    ring
  rw [round2, key]
  congr 1
  have h0 : (0 : ℚ) ≤ ((20000 * r + t : ℕ) : ℚ) / ((2 * t : ℕ) : ℚ) := by positivity
  rw [← natCast_floor_eq_intCast_floor h0, Nat.floor_div_eq_div]

/-- C3: every row of the resolution-statistics report (report 5) and the
ward-performance report (report 9) satisfies
`resolved + in_progress + submitted ≤ total_complaints`, its
`resolution_rate` equals `resolved * 100 / total` rounded half-up to two
decimal places exactly, and no row with `total_complaints = 0` is ever
produced. -/
theorem statistics_invariants (db : DB) :
    (∀ row ∈ query_5_resolution_statistics db,
      row.stats.resolved + row.stats.in_progress + row.stats.submitted ≤
        row.stats.total_complaints ∧
      (row.stats.resolution_rate : ℚ) / 100 =
        round2 ((row.stats.resolved : ℚ) * 100 / (row.stats.total_complaints : ℚ)) ∧
      0 < row.stats.total_complaints) ∧
    (∀ row ∈ query_9_ward_performance db,
      row.stats.resolved + row.stats.in_progress + row.stats.submitted ≤
        row.stats.total_complaints ∧
      (row.stats.resolution_rate : ℚ) / 100 =
        round2 ((row.stats.resolved : ℚ) * 100 / (row.stats.total_complaints : ℚ)) ∧
      0 < row.stats.total_complaints) := by
  constructor
  · intro row hrow
    have hrow' := (List.perm_insertionSort q5ByTotalDesc _).mem_iff.mp hrow
    rw [List.mem_map] at hrow'
    obtain ⟨k, hk, rfl⟩ := hrow'
    obtain ⟨j, hj, hkey⟩ := groupKeys_mem _ _ _ hk
    have hmem : j ∈ (query_5_source db).filter
        (fun j => (j.category_id, j.category_name) == k) :=
      List.mem_filter.mpr ⟨hj, by simp [hkey]⟩
    have hpos : 0 < (((query_5_source db).filter
        (fun j => (j.category_id, j.category_name) == k)).map
          (fun j => j.status)).length := by
      simpa using List.length_pos.mpr (List.ne_nil_of_mem hmem)
    exact ⟨countP_statuses_le_length _, rate_hundredths_eq _ _ hpos, hpos⟩
  · intro row hrow
    have hrow' := (List.perm_insertionSort q9ByTotalDesc _).mem_iff.mp hrow
    rw [List.mem_map] at hrow'
    obtain ⟨k, hk, rfl⟩ := hrow'
    obtain ⟨j, hj, hkey⟩ := groupKeys_mem _ _ _ hk
    have hmem : j ∈ (query_9_source db).filter (fun j => j.ward == k) :=
      List.mem_filter.mpr ⟨hj, by simp [hkey]⟩
    have hpos : 0 < (((query_9_source db).filter
        (fun j => j.ward == k)).map (fun j => j.status)).length := by
      simpa using List.length_pos.mpr (List.ne_nil_of_mem hmem)
    exact ⟨countP_statuses_le_length _, rate_hundredths_eq _ _ hpos, hpos⟩

/-- Witness for C3: the Scenario A store groups into one `Pothole` row
with one resolved complaint out of one and a rate of exactly 100. -/
theorem statistics_invariants_witness :
    (⟨"Pothole", ⟨1, 1, 0, 0, 10000⟩⟩ : Q5Row).stats.resolved +
      (⟨"Pothole", ⟨1, 1, 0, 0, 10000⟩⟩ : Q5Row).stats.in_progress +
      (⟨"Pothole", ⟨1, 1, 0, 0, 10000⟩⟩ : Q5Row).stats.submitted ≤
      (⟨"Pothole", ⟨1, 1, 0, 0, 10000⟩⟩ : Q5Row).stats.total_complaints ∧
    ((⟨"Pothole", ⟨1, 1, 0, 0, 10000⟩⟩ : Q5Row).stats.resolution_rate : ℚ) / 100 =
      round2 (((⟨"Pothole", ⟨1, 1, 0, 0, 10000⟩⟩ : Q5Row).stats.resolved : ℚ) * 100 /
        ((⟨"Pothole", ⟨1, 1, 0, 0, 10000⟩⟩ : Q5Row).stats.total_complaints : ℚ)) ∧
    0 < (⟨"Pothole", ⟨1, 1, 0, 0, 10000⟩⟩ : Q5Row).stats.total_complaints :=
  (statistics_invariants scenarioA).1 ⟨"Pothole", ⟨1, 1, 0, 0, 10000⟩⟩ (by decide)

theorem detail_query_eq_nil {db : DB} {cid : Nat}
    (h : ∀ c ∈ db.complaints, c.complaint_id ≠ cid) :
    detail_query (some cid) db = [] := by
  rw [detail_query, List.flatMap_eq_nil_iff]
  intro c hc
  rw [List.flatMap_eq_nil_iff]
  intro r hr
  rw [List.flatMap_eq_nil_iff]
  intro sc hsc
  have hne : ¬(intParamMatches (some cid) c.complaint_id = true) := by
    simp only [intParamMatches, beq_iff_eq]
    exact fun he => h c hc he.symm
  rw [if_neg hne]

theorem detail_query_eq_singleton {db : DB} {c : Complaint} {r : Resident}
    {sc : ServiceCategory}
    (hres : (db.residents.map (fun x => x.resident_id)).Nodup)
    (hcat : (db.service_categories.map (fun x => x.category_id)).Nodup)
    (hcomp : (db.complaints.map (fun x => x.complaint_id)).Nodup)
    (hc : c ∈ db.complaints) (hr : r ∈ db.residents) (hrid : r.resident_id = c.resident_id)
    (hsc : sc ∈ db.service_categories) (hscid : sc.category_id = c.category_id) :
    detail_query (some c.complaint_id) db =
      [⟨c.complaint_id, residentName r, sc.category_name, c.title, c.description,
        c.submission_date⟩] := by
  rw [detail_query]
  refine (flatMap_eq_of_support (fun x => x.complaint_id) db.complaints _ c hcomp hc ?_).trans ?_
  · intro c' hc' hne
    rw [List.flatMap_eq_nil_iff]
    intro r' hr'
    rw [List.flatMap_eq_nil_iff]
    intro sc' hsc'
    have hnm : ¬(intParamMatches (some c.complaint_id) c'.complaint_id = true) := by
      simp only [intParamMatches, beq_iff_eq]
      exact fun he => hne he.symm
    rw [if_neg hnm]
  · rw [filter_key_eq_singleton (fun x => x.resident_id) db.residents hres r hr
      c.resident_id hrid]
    simp only [List.flatMap_cons, List.flatMap_nil, List.append_nil]
    rw [filter_key_eq_singleton (fun x => x.category_id) db.service_categories hcat sc hsc
      c.category_id hscid]
    simp only [List.flatMap_cons, List.flatMap_nil, List.append_nil]
    rw [if_pos (by simp [intParamMatches])]

/-- C4: for the complaint-timeline report (report 10), a complaint id
absent from the complaints table yields the distinct not-found outcome,
which carries no timeline (the timeline sub-query is never executed);
an id present in the complaints table (whose resident and category
references resolve, per the data model's referential invariants)
yields the complaint detail followed by the complaint's full
status-event history ordered by status date ascending. -/
theorem complaint_timeline_correct (db : DB) (cid : Nat)
    (hres : (db.residents.map (fun x => x.resident_id)).Nodup)
    (hcat : (db.service_categories.map (fun x => x.category_id)).Nodup)
    (hcomp : (db.complaints.map (fun x => x.complaint_id)).Nodup) :
    ((∀ c ∈ db.complaints, c.complaint_id ≠ cid) →
      query_10_run (some cid) db = TimelineOutput.notFound) ∧
    (∀ c ∈ db.complaints, c.complaint_id = cid →
      ∀ r ∈ db.residents, r.resident_id = c.resident_id →
      ∀ sc ∈ db.service_categories, sc.category_id = c.category_id →
      query_10_run (some cid) db = TimelineOutput.found
        ⟨c.complaint_id, residentName r, sc.category_name, c.title, c.description,
          c.submission_date⟩ (timeline_query (some cid) db) ∧
      (timeline_query (some cid) db).Perm
        ((db.status_logs.filter (fun l => l.complaint_id == cid)).map
          (fun l => ⟨l.status, l.status_date⟩)) ∧
      (timeline_query (some cid) db).Pairwise
        (fun a b => a.status_date ≤ b.status_date)) := by
  constructor
  · intro h
    rw [query_10_run, detail_query_eq_nil h]
  · intro c hc hcid r hr hrid sc hsc hscid
    subst hcid
    refine ⟨?_, ?_, ?_⟩
    · rw [query_10_run, detail_query_eq_singleton hres hcat hcomp hc hr hrid hsc hscid]
    · have hfil : db.status_logs.filter
          (fun l => intParamMatches (some c.complaint_id) l.complaint_id) =
          db.status_logs.filter (fun l => l.complaint_id == c.complaint_id) := by
        apply List.filter_congr
        intro l _
        simp only [intParamMatches]
        by_cases hl : c.complaint_id = l.complaint_id <;> simp [hl, Ne.symm]
      have h1 : timeline_query (some c.complaint_id) db = List.insertionSort byStatusDateAsc
          ((db.status_logs.filter (fun l => l.complaint_id == c.complaint_id)).map
            (fun l => (⟨l.status, l.status_date⟩ : TimelineRow))) := by
        rw [timeline_query, hfil]
      rw [h1]
      exact List.perm_insertionSort _ _
    · haveI : IsTotal TimelineRow byStatusDateAsc :=
        ⟨fun a b => Nat.le_total a.status_date b.status_date⟩
      haveI : IsTrans TimelineRow byStatusDateAsc :=
        ⟨fun a b c hab hbc => le_trans hab hbc⟩
      exact List.sorted_insertionSort byStatusDateAsc _

/-- Witness for C4 at the Scenario A store: id 5 is absent and reports
not-found; id 1 is present and yields its detail and ordered history. -/
theorem complaint_timeline_correct_witness :
    query_10_run (some 5) scenarioA = TimelineOutput.notFound ∧
    query_10_run (some 1) scenarioA = TimelineOutput.found
      ⟨1, "A B", "Pothole", "Hole", "desc", 20240101⟩ (timeline_query (some 1) scenarioA) ∧
    (timeline_query (some 1) scenarioA).Perm
      ((scenarioA.status_logs.filter (fun l => l.complaint_id == 1)).map
        (fun l => ⟨l.status, l.status_date⟩)) ∧
    (timeline_query (some 1) scenarioA).Pairwise
      (fun a b => a.status_date ≤ b.status_date) :=
  ⟨(complaint_timeline_correct scenarioA 5 (by decide) (by decide) (by decide)).1 (by decide),
   (complaint_timeline_correct scenarioA 1 (by decide) (by decide) (by decide)).2
     ⟨1, 1, 1, "Hole", "desc", 20240101⟩ (by decide) rfl
     ⟨1, "A", "B", 3, "", ""⟩ (by decide) rfl
     ⟨1, "Pothole"⟩ (by decide) rfl⟩

theorem loadTable_cons {α : Type} (ident : α → Nat) (t : List α) (r : α) (rs : List α) :
    loadTable ident t (r :: rs) = loadTable ident (upsert ident t r) rs :=
  rfl

theorem upsert_ids {α : Type} (ident : α → Nat) (t : List α) (r : α) :
    (upsert ident t r).map ident =
      if (t.filter (fun x => ident x == ident r)).isEmpty then t.map ident ++ [ident r]
      else t.map ident := by
  rw [upsert]
  by_cases h : (t.filter (fun x => ident x == ident r)).isEmpty = true
  · rw [if_pos h, if_pos h, List.map_append]
    rfl
  · rw [if_neg h, if_neg h, List.map_map]
    apply List.map_congr_left
    intro x hx
    by_cases hx' : (ident x == ident r) = true
    · simp only [Function.comp_apply, if_pos hx']
      exact (beq_iff_eq.mp hx').symm
    · simp only [Function.comp_apply, if_neg hx']

theorem upsert_mem_ids {α : Type} (ident : α → Nat) (t : List α) (r : α) :
    ident r ∈ (upsert ident t r).map ident := by
  rw [upsert_ids]
  by_cases h : (t.filter (fun x => ident x == ident r)).isEmpty = true
  · rw [if_pos h]
    exact List.mem_append_right _ (List.mem_singleton.mpr rfl)
  · rw [if_neg h]
    have hx : ∃ x ∈ t, (ident x == ident r) = true := by
      by_contra hall
      push_neg at hall
      exact h (List.isEmpty_iff.mpr (List.filter_eq_nil_iff.mpr hall))
    obtain ⟨x, hxm, hbe⟩ := hx
    rw [beq_iff_eq] at hbe
    exact hbe ▸ List.mem_map_of_mem ident hxm

theorem loadTable_ids_mono {α : Type} (ident : α → Nat) :
    ∀ (rows t : List α) (i : Nat), i ∈ t.map ident →
      i ∈ (loadTable ident t rows).map ident := by
  intro rows
  induction rows with
  | nil => intro t i h; exact h
  | cons r rs ih =>
    intro t i h
    rw [loadTable_cons]
    refine ih _ i ?_
    rw [upsert_ids]
    by_cases hh : (t.filter (fun x => ident x == ident r)).isEmpty = true
    · rw [if_pos hh]
      exact List.mem_append_left _ h
    · rw [if_neg hh]
      exact h

theorem loadTable_ids_stable {α : Type} (ident : α → Nat) :
    ∀ (rows t : List α), (∀ r ∈ rows, ident r ∈ t.map ident) →
      (loadTable ident t rows).map ident = t.map ident := by
  intro rows
  induction rows with
  | nil => intro t _; rfl
  | cons r rs ih =>
    intro t h
    rw [loadTable_cons]
    have hpres : ident r ∈ t.map ident := h r (List.mem_cons_self _ _)
    have hemp : ¬(t.filter (fun x => ident x == ident r)).isEmpty = true := by
      intro he
      rw [List.isEmpty_iff, List.filter_eq_nil_iff] at he
      obtain ⟨x, hx, hxid⟩ := List.mem_map.mp hpres
      exact he x hx (by simp [hxid])
    have hids : (upsert ident t r).map ident = t.map ident := by
      rw [upsert_ids, if_neg hemp]
    refine (ih (upsert ident t r) ?_).trans hids
    intro r' hr'
    rw [hids]
    exact h r' (List.mem_cons_of_mem _ hr')

theorem loadTable_mem_ids {α : Type} (ident : α → Nat) :
    ∀ (rows t : List α) (r : α), r ∈ rows →
      ident r ∈ (loadTable ident t rows).map ident := by
  intro rows
  induction rows with
  | nil => intro t r h; simp at h
  | cons a as ih =>
    intro t r h
    rw [loadTable_cons]
    rcases List.mem_cons.mp h with rfl | h
    · exact loadTable_ids_mono ident as _ _ (upsert_mem_ids ident t r)
    · exact ih _ r h

theorem find?_map_replace {α : Type} (ident : α → Nat) (r : α) (i : Nat) :
    ∀ (t : List α),
      (t.map (fun x => if ident x == ident r then r else x)).find?
          (fun x => ident x == i) =
        if ident r = i then (t.find? (fun x => ident x == ident r)).map (fun _ => r)
        else t.find? (fun x => ident x == i) := by
  intro t
  induction t with
  | nil => by_cases h : ident r = i <;> simp [h]
  | cons a as ih =>
    by_cases ha : (ident a == ident r) = true
    · by_cases hi : ident r = i
      · rw [List.map_cons, if_pos ha, if_pos hi,
          List.find?_cons_of_pos (p := fun x => ident x == i) (a := r) _ (by simp [hi]),
          List.find?_cons_of_pos (p := fun x => ident x == ident r) (a := a) _ ha]
        rfl
      · rw [List.map_cons, if_pos ha, if_neg hi,
          List.find?_cons_of_neg (p := fun x => ident x == i) (a := r) _ (by simp [hi]),
          List.find?_cons_of_neg (p := fun x => ident x == i) (a := a) _
            (by simp [beq_iff_eq.mp ha, hi]),
          ih, if_neg hi]
    · by_cases hi : ident r = i
      · rw [List.map_cons, if_neg ha, if_pos hi,
          List.find?_cons_of_neg (p := fun x => ident x == i) (a := a) _
            (by simpa [hi] using ha),
          List.find?_cons_of_neg (p := fun x => ident x == ident r) (a := a) _ ha,
          ih, if_pos hi]
      · by_cases hpa : (ident a == i) = true
        · rw [List.map_cons, if_neg ha,
            List.find?_cons_of_pos (p := fun x => ident x == i) (a := a) _ hpa,
            if_neg hi,
            List.find?_cons_of_pos (p := fun x => ident x == i) (a := a) _ hpa]
        · rw [List.map_cons, if_neg ha,
            List.find?_cons_of_neg (p := fun x => ident x == i) (a := a) _ hpa,
            if_neg hi,
            List.find?_cons_of_neg (p := fun x => ident x == i) (a := a) _ hpa,
            ih, if_neg hi]

theorem find?_upsert {α : Type} (ident : α → Nat) (t : List α) (r : α) (i : Nat) :
    (upsert ident t r).find? (fun x => ident x == i) =
      if ident r = i then some r else t.find? (fun x => ident x == i) := by
  rw [upsert]
  by_cases hemp : (t.filter (fun x => ident x == ident r)).isEmpty = true
  · rw [if_pos hemp, List.find?_append]
    have hnone : ∀ x ∈ t, ¬(ident x == ident r) = true := by
      rw [← List.filter_eq_nil_iff, ← List.isEmpty_iff]
      exact hemp
    by_cases hi : ident r = i
    · have ht : t.find? (fun x => ident x == i) = none := by
        rw [List.find?_eq_none]
        intro x hx
        rw [← hi]
        exact hnone x hx
      rw [ht, if_pos hi]
      simp [hi]
    · rw [if_neg hi]
      have hr : List.find? (fun x => ident x == i) [r] = none := by
        simp [hi]
      rw [hr]
      cases t.find? (fun x => ident x == i) <;> rfl
  · rw [if_neg hemp, find?_map_replace]
    by_cases hi : ident r = i
    · rw [if_pos hi, if_pos hi]
      have hx : ∃ x ∈ t, (ident x == ident r) = true := by
        by_contra hall
        push_neg at hall
        exact hemp (List.isEmpty_iff.mpr (List.filter_eq_nil_iff.mpr hall))
      have hsome : (t.find? (fun x => ident x == ident r)).isSome = true :=
        List.find?_isSome.mpr hx
      obtain ⟨y, hy⟩ := Option.isSome_iff_exists.mp hsome
      rw [hy]
      rfl
    · rw [if_neg hi, if_neg hi]

theorem foldl_lastWith {α : Type} (ident : α → Nat) (i : Nat) :
    ∀ (rows : List α) (acc : Option α),
      rows.foldl (fun acc r => if ident r = i then some r else acc) acc =
        match lastWith ident rows i with
        | some x => some x
        | none => acc := by
  intro rows
  induction rows with
  | nil => intro acc; rfl
  | cons a as ih =>
    intro acc
    rw [List.foldl_cons, ih]
    have hrhs : lastWith ident (a :: as) i =
        match lastWith ident as i with
        | some x => some x
        | none => if ident a = i then some a else none := by
      rw [lastWith, List.foldl_cons, ih]
    rw [hrhs]
    by_cases h : ident a = i
    · rw [if_pos h, if_pos h]
      cases lastWith ident as i <;> rfl
    · rw [if_neg h, if_neg h]
      cases lastWith ident as i <;> rfl

theorem find?_loadTable {α : Type} (ident : α → Nat) (i : Nat) :
    ∀ (rows t : List α),
      (loadTable ident t rows).find? (fun x => ident x == i) =
        match lastWith ident rows i with
        | some x => some x
        | none => t.find? (fun x => ident x == i) := by
  intro rows
  induction rows with
  | nil => intro t; rfl
  | cons r rs ih =>
    intro t
    rw [loadTable_cons, ih]
    have hrhs : lastWith ident (r :: rs) i =
        match lastWith ident rs i with
        | some x => some x
        | none => if ident r = i then some r else none := by
      rw [lastWith, List.foldl_cons, foldl_lastWith]
    rw [hrhs]
    cases lastWith ident rs i with
    | some x => rfl
    | none =>
      rw [find?_upsert]
      by_cases h : ident r = i
      · rw [if_pos h, if_pos h]
      · rw [if_neg h, if_neg h]

theorem loadTable_find?_idem {α : Type} (ident : α → Nat) (t rows : List α) (i : Nat) :
    (loadTable ident (loadTable ident t rows) rows).find? (fun x => ident x == i) =
      (loadTable ident t rows).find? (fun x => ident x == i) := by
  rw [find?_loadTable]
  cases hlw : lastWith ident rows i with
  | none => rfl
  | some x =>
    rw [find?_loadTable, hlw]

theorem loadTable_ids_idem {α : Type} (ident : α → Nat) (t rows : List α) :
    (loadTable ident (loadTable ident t rows) rows).map ident =
      (loadTable ident t rows).map ident :=
  loadTable_ids_stable ident rows _ (fun r hr => loadTable_mem_ids ident rows t r hr)

theorem upsert_nodup {α : Type} (ident : α → Nat) (t : List α) (r : α)
    (h : (t.map ident).Nodup) : ((upsert ident t r).map ident).Nodup := by
  rw [upsert_ids]
  by_cases hemp : (t.filter (fun x => ident x == ident r)).isEmpty = true
  · rw [if_pos hemp]
    have hnm : ident r ∉ t.map ident := by
      intro hm
      obtain ⟨x, hx, hid⟩ := List.mem_map.mp hm
      rw [List.isEmpty_iff, List.filter_eq_nil_iff] at hemp
      exact hemp x hx (by simp [hid])
    rw [List.nodup_append]
    exact ⟨h, List.nodup_singleton _, by simpa using hnm⟩
  · rw [if_neg hemp]
    exact h

theorem loadTable_nodup {α : Type} (ident : α → Nat) :
    ∀ (rows t : List α), (t.map ident).Nodup →
      ((loadTable ident t rows).map ident).Nodup := by
  intro rows
  induction rows with
  | nil => intro t h; exact h
  | cons r rs ih =>
    intro t h
    rw [loadTable_cons]
    exact ih _ (upsert_nodup ident t r h)

theorem eq_of_ids_and_find? {α : Type} (ident : α → Nat) :
    ∀ (t₁ t₂ : List α), (t₁.map ident).Nodup → t₁.map ident = t₂.map ident →
      (∀ i, t₁.find? (fun x => ident x == i) = t₂.find? (fun x => ident x == i)) →
      t₁ = t₂ := by
  intro t₁
  induction t₁ with
  | nil =>
    intro t₂ _ hids _
    cases t₂ with
    | nil => rfl
    | cons b bs => simp at hids
  | cons a as ih =>
    intro t₂ hnd hids hf
    cases t₂ with
    | nil => simp at hids
    | cons b bs =>
      rw [List.map_cons, List.map_cons] at hids
      have hab : ident a = ident b := (List.cons.injEq _ _ _ _ ▸ hids).1
      have hids' : as.map ident = bs.map ident := (List.cons.injEq _ _ _ _ ▸ hids).2
      rw [List.map_cons, List.nodup_cons] at hnd
      have hfa := hf (ident a)
      rw [List.find?_cons_of_pos (p := fun x => ident x == ident a) (a := a) _ (by simp),
        List.find?_cons_of_pos (p := fun x => ident x == ident a) (a := b) _
          (by simp [hab.symm])] at hfa
      obtain rfl : a = b := by simpa using hfa
      refine congrArg (List.cons a) (ih bs hnd.2 hids' ?_)
      intro i
      by_cases hi : i = ident a
      · subst hi
        rw [List.find?_eq_none.mpr, List.find?_eq_none.mpr]
        · intro x hx
          simp only [beq_iff_eq]
          intro he
          exact hnd.1 (he ▸ hids' ▸ List.mem_map_of_mem ident hx)
        · intro x hx
          simp only [beq_iff_eq]
          intro he
          exact hnd.1 (he ▸ List.mem_map_of_mem ident hx)
      · have hfi := hf i
        rw [List.find?_cons_of_neg (p := fun x => ident x == i) (a := a) _
            (by simp [Ne.symm hi]),
          List.find?_cons_of_neg (p := fun x => ident x == i) (a := a) _
            (by simp [Ne.symm hi])] at hfi
        exact hfi

theorem loadTable_idem {α : Type} (ident : α → Nat) (t rows : List α)
    (h : (t.map ident).Nodup) :
    loadTable ident (loadTable ident t rows) rows = loadTable ident t rows :=
  eq_of_ids_and_find? ident _ _
    (loadTable_nodup ident rows _ (loadTable_nodup ident rows t h))
    (loadTable_ids_idem ident t rows)
    (fun i => loadTable_find?_idem ident t rows i)

theorem loadSource_idem {α : Type} (ident : α → Nat) (t : List α) (o : Option (List α))
    (h : (t.map ident).Nodup) :
    loadSource ident (loadSource ident t o) o = loadSource ident t o := by
  cases o with
  | none => rfl
  | some rows => exact loadTable_idem ident t rows h

/-- C5: running the ingestion job twice with identical input sources
leaves every table's contents unchanged relative to running it once —
each record is upserted keyed by its identity column with
insert-or-replace semantics, so re-ingestion is idempotent row-for-row.
Stated for stores whose tables satisfy their primary-key (distinct
identity) invariant. -/
theorem load_csv_data_idempotent (db : DB) (files : CsvFiles)
    (hres : (db.residents.map (fun r => r.resident_id)).Nodup)
    (hcat : (db.service_categories.map (fun c => c.category_id)).Nodup)
    (hcomp : (db.complaints.map (fun c => c.complaint_id)).Nodup)
    (hlog : (db.status_logs.map (fun l => l.log_id)).Nodup) :
    load_csv_data (load_csv_data db files) files = load_csv_data db files := by
  simp only [load_csv_data]
  congr 1
  · exact loadSource_idem _ _ _ hres
  · exact loadSource_idem _ _ _ hcat
  · exact loadSource_idem _ _ _ hcomp
  · exact loadSource_idem _ _ _ hlog

/-- Witness for C5: re-ingesting the sample sources into the Scenario A
store changes nothing the second time. -/
theorem load_csv_data_idempotent_witness :
    load_csv_data (load_csv_data scenarioA sampleFiles) sampleFiles =
      load_csv_data scenarioA sampleFiles :=
  load_csv_data_idempotent scenarioA sampleFiles (by decide) (by decide) (by decide)
    (by decide)

/-- C6 (code-bug exhibit): the ward handler never converts the typed
input to a number — nothing in its `try` block can raise `ValueError` —
so a non-numeric input is bound as-is, the query runs and an empty
table is rendered instead of the claimed invalid-input message, while a
numeric input renders the matching rows; the invalid-input branch is
unreachable for every input. The same dead pattern guards reports 2, 4
and 10, where a non-numeric complaint id likewise reaches the query and
surfaces as not-found. -/
theorem ward_handler_runs_on_malformed_input :
    query_3_handler "abc" scenarioA =
      WardHandlerOutput.table "Complaints for Ward abc" [] ∧
    query_3_handler "3" scenarioA =
      WardHandlerOutput.table "Complaints for Ward 3"
        [⟨1, "A B", "Pothole", "Hole", 20240101, "Resolved"⟩] ∧
    (∀ ward db, ∃ rows, query_3_handler ward db =
      WardHandlerOutput.table ("Complaints for Ward " ++ ward) rows) ∧
    query_10_complaint_timeline "abc" scenarioA = TimelineOutput.notFound :=
  ⟨by decide, by decide, fun ward db => ⟨_, rfl⟩, by decide⟩

/-- C7: for every empty result sequence, the tabular renderer emits the
title banner and the explicit `"No results found."` line, and emits no
header line and no row lines. -/
theorem print_results_empty (title : String) :
    print_results [] title = ["", eqLine, title, eqLine, "No results found."] :=
  rfl

/-- C8: for every non-empty result sequence, the renderer emits the
banner, a header naming the first row's columns in order, a separator,
one line per row with each value left-justified to a minimum width of
15 characters, and a trailing count equal to the number of rows; padded
values keep the full original value as a prefix (never truncated) and
have length `max 15` the value's length. -/
theorem print_results_nonempty (first : List (String × String))
    (rest : List (List (String × String))) (title : String) :
    print_results (first :: rest) title =
      ["", eqLine, title, eqLine,
        String.intercalate " | " ((first.map Prod.fst).map ljust15),
        String.mk (List.replicate
          (String.intercalate " | " ((first.map Prod.fst).map ljust15)).length '-')] ++
      (first :: rest).map (fun row => String.intercalate " | "
        ((first.map Prod.fst).map (fun col => ljust15 (colValue row col)))) ++
      ["", "Total records: " ++ toString (first :: rest).length] ∧
    ((first :: rest).map (fun row => String.intercalate " | "
      ((first.map Prod.fst).map (fun col => ljust15 (colValue row col))))).length =
      (first :: rest).length ∧
    ∀ s, (ljust15 s).length = max 15 s.length ∧ ∃ pad, ljust15 s = s ++ pad := by
  refine ⟨rfl, List.length_map _ _, ?_⟩
  intro s
  constructor
  · rw [ljust15, String.length_append]
    simp only [String.length, String.mk, List.length_replicate]
    omega
  · exact ⟨String.mk (List.replicate (15 - s.length) ' '), rfl⟩

/-- C9: `disconnect` is safe with no connection ever established and
safe to call multiple times — it closes the held session when one
exists and otherwise does nothing (it is a total function: nothing
raises) — and the CLI loop's `try/except/except/finally` shape runs
`disconnect` on every exit path (normal exit, user interrupt, unhandled
error), so the session is always released. -/
theorem disconnect_releases_on_every_exit :
    disconnect ⟨none⟩ = ⟨none⟩ ∧
    (∀ db, disconnect (disconnect db) = disconnect db) ∧
    (∀ db, sessionReleased (disconnect db)) ∧
    (∀ outcome db, sessionReleased (run_cleanup outcome db).2) := by
  have hrel : ∀ db, sessionReleased (disconnect db) := by
    intro db c hc
    cases db with
    | mk conn =>
      cases conn with
      | none => simp [disconnect] at hc
      | some c' =>
        simp only [disconnect] at hc
        obtain rfl : _ = c := by simpa using hc
        rfl
  refine ⟨rfl, ?_, hrel, ?_⟩
  · intro db
    cases db with
    | mk conn => cases conn <;> rfl
  · intro outcome db
    cases outcome <;> exact hrel db

/-- C10: the resident-history report (report 4) does not join the
residents table: complaints referencing the requested resident id
appear in the result (given a category row and at least one status
event) regardless of the residents table's contents, and when no
residents row with that id exists the report title falls back to the
literal `Resident <id>` in place of the resident's name. -/
theorem resident_history_no_residents_join (db : DB) (s : String) (rid : Nat)
    (hs : sqlIntParam s = some rid) :
    (∀ c ∈ db.complaints, c.resident_id = rid →
      (∃ sc ∈ db.service_categories, sc.category_id = c.category_id) →
      (∃ sl, latestLog db.status_logs c.complaint_id = some sl) →
      ∃ row ∈ (query_4_handler s db).2, row.complaint_id = c.complaint_id) ∧
    ((∀ r ∈ db.residents, r.resident_id ≠ rid) →
      (query_4_handler s db).1 = "Complaint History for Resident " ++ s) := by
  constructor
  · intro c hc hrid ⟨sc, hsc, hscid⟩ ⟨sl, hsl⟩
    refine ⟨⟨c.complaint_id, sc.category_name, c.title, c.submission_date, sl.status⟩,
      ?_, rfl⟩
    show _ ∈ query_4_resident_history (sqlIntParam s) db
    refine (List.perm_insertionSort q4ByDateDesc _).mem_iff.mpr ?_
    rw [query_4_join]
    refine List.mem_flatMap.mpr ⟨c, hc, ?_⟩
    refine List.mem_flatMap.mpr ⟨sc, List.mem_filter.mpr ⟨hsc, by simp [hscid]⟩, ?_⟩
    rw [hsl]
    have hmatch : intParamMatches (sqlIntParam s) c.resident_id = true := by
      simp [intParamMatches, hs, hrid]
    simp [hmatch]
  · intro hno
    have hfil : db.residents.filter
        (fun r => intParamMatches (sqlIntParam s) r.resident_id) = [] := by
      rw [hs, List.filter_eq_nil_iff]
      intro r hr
      simp only [intParamMatches, beq_iff_eq]
      exact fun he => hno r hr he.symm
    show ("Complaint History for " ++ _ : String) = _
    rw [hfil]
    simp only [List.map_nil]
    have hlit : ("Complaint History for " ++ "Resident " : String) =
        "Complaint History for Resident " := rfl
    rw [← String.append_assoc, hlit]

/-- Witness for C10 at the orphan store: complaint 1 (resident id 7,
with a category row and one event) appears in the report although the
residents table is empty, and the title falls back to `Resident 7`. -/
theorem resident_history_no_residents_join_witness :
    (∃ row ∈ (query_4_handler "7" scenarioOrphan).2, row.complaint_id = 1) ∧
    (query_4_handler "7" scenarioOrphan).1 = "Complaint History for Resident 7" := by
  have h := resident_history_no_residents_join scenarioOrphan "7" 7 (by decide)
  exact ⟨h.1 ⟨1, 7, 1, "Hole", "desc", 20240101⟩ (by decide) rfl
      ⟨⟨1, "Pothole"⟩, by decide, rfl⟩ ⟨⟨1, 1, "Submitted", 20240101⟩, by decide⟩,
    h.2 (by decide)⟩
